import Mathlib

/-!
# Verification of the multiplayer state-synchronization server

Shallow embedding of `src/ch_03/server/src/main.rs` (the server core),
`src/ch_04/shared/src/lib.rs` (the message types) and the client message
handler in `src/ch_04/game/src/main.rs`, together with proofs settling the
frozen claims about the natural-language specification.

Modelling conventions:
* `usize` is modelled as `Nat`; where wrap-around of the 64-bit counter
  matters (the id allocator uses `AtomicUsize::fetch_add`, which wraps on
  overflow) the reduction `% 2^64` is explicit.
* `f32` values are modelled by the inductive `F32`: a finite value is
  carried as the exact rational it denotes (serde_json prints finite floats
  with a shortest round-tripping decimal representation), and the
  non-finite values `nan`, `inf`, `neginf` are separate constructors
  because serde_json serializes non-finite floats as JSON `null` and fails
  to deserialize `null` back into an `f32`.
* The byte frames produced by `serde_json::to_vec` are modelled at the level
  of the JSON document tree (`Json` below): the JSON text grammar is
  injective on documents, so two messages are byte-distinguishable iff their
  JSON trees differ.
* The `tokio::sync::mpsc` unbounded channel of a connection is a queue plus
  a `closed` flag; `closed = true` models the receiver having been dropped,
  which happens exactly when the spawned forwarder task of
  `create_send_channel` finishes after a websocket write error.
  `UnboundedSender::send` succeeds, appending to the queue, whenever the
  receiver is alive (it never blocks and has no capacity bound), and
  returns `Err(SendError)` when the receiver is gone.
* The two shared `HashMap`s (`Users`, `States`) are association lists; a
  `HashMap` iterates in unspecified order, so every claim about iteration
  is stated per key, never about list order.
-/

/-- Model of an `f32` value: finite values carry the exact rational they
denote; the non-finite values are kept apart because serde_json encodes
them as JSON `null`. -/
inductive F32 where
  | finite (val : ℚ)
  | nan
  | inf
  | neginf
deriving DecidableEq, Repr

/-- Model of `glam::Vec2`: a pair of `f32`. Its serde implementation serializes as a
two-element JSON sequence `[x, y]`. -/
structure Vec2 where
  x : F32
  y : F32
deriving DecidableEq, Repr

/-- Struct `RemoteState` from `src/ch_04/shared/src/lib.rs` (also defined
identically in the server): `{ id: usize, position: Vec2, rotation: f32 }`. -/
structure RemoteState where
  id : Nat
  position : Vec2
  rotation : F32
deriving DecidableEq, Repr

/-- Struct `State` from `src/ch_04/shared/src/lib.rs`: `{ pos: Vec2, r: f32 }`. -/
structure State where
  pos : Vec2
  r : F32
deriving DecidableEq, Repr

/-- The `ServerMessage` tagged union. -/
inductive ServerMessage where
  | Welcome (id : Nat)
  | GoodBye (id : Nat)
  | Update (states : List RemoteState)
deriving DecidableEq, Repr

/-- The `ClientMessage` tagged union. -/
inductive ClientMessage where
  | State (s : State)
deriving DecidableEq, Repr

/-- JSON document tree, the target of `serde_json` serialization.  Numbers
carry the exact rational value of the printed decimal. -/
inductive Json where
  | null
  | bool (b : Bool)
  | num (q : ℚ)
  | str (s : String)
  | arr (elems : List Json)
  | obj (fields : List (String × Json))

/-- serde_json encoding of an `f32`: a finite value prints as a number,
non-finite values print as `null`. -/
def encodeF32 : F32 → Json
  | .finite q => .num q
  | .nan => .null
  | .inf => .null
  | .neginf => .null

/-- serde encoding of `glam::Vec2`: a two-element sequence. -/
def encodeVec2 (v : Vec2) : Json :=
  .arr [encodeF32 v.x, encodeF32 v.y]

/-- serde encoding of `RemoteState`: a struct is a JSON object with the
fields in declaration order. -/
def encodeRemoteState (s : RemoteState) : Json :=
  .obj [("id", .num s.id), ("position", encodeVec2 s.position),
        ("rotation", encodeF32 s.rotation)]

/-- serde encoding of `State`. -/
def encodeState (s : State) : Json :=
  .obj [("pos", encodeVec2 s.pos), ("r", encodeF32 s.r)]

/-- serde encoding of `ServerMessage`: an externally tagged enum, an object
with the single key naming the variant. -/
def encodeServer : ServerMessage → Json
  | .Welcome id => .obj [("Welcome", .num id)]
  | .GoodBye id => .obj [("GoodBye", .num id)]
  | .Update xs => .obj [("Update", .arr (xs.map encodeRemoteState))]

/-- serde encoding of `ClientMessage`. -/
def encodeClient : ClientMessage → Json
  | .State s => .obj [("State", encodeState s)]

/-- serde_json deserialization of a `usize`: the document must be a number
holding a nonnegative integer below `2^64`. -/
def decodeUsize : Json → Option Nat
  | .num q =>
    if q.den = 1 ∧ 0 ≤ q.num ∧ q.num < 2 ^ 64 then some q.num.toNat else none
  | _ => none

/-- serde_json deserialization of an `f32`: a number parses to the finite
value it denotes; `null` (the encoding of a non-finite float) is an error. -/
def decodeF32 : Json → Option F32
  | .num q => some (.finite q)
  | _ => none

/-- serde deserialization of `glam::Vec2`. -/
def decodeVec2 : Json → Option Vec2
  | .arr [jx, jy] => do
    let x ← decodeF32 jx
    let y ← decodeF32 jy
    pure ⟨x, y⟩
  | _ => none

/-- serde deserialization of `RemoteState`. -/
def decodeRemoteState : Json → Option RemoteState
  | .obj [("id", jid), ("position", jpos), ("rotation", jrot)] => do
    let id ← decodeUsize jid
    let pos ← decodeVec2 jpos
    let rot ← decodeF32 jrot
    pure ⟨id, pos, rot⟩
  | _ => none

/-- serde deserialization of `State`. -/
def decodeState : Json → Option State
  | .obj [("pos", jpos), ("r", jr)] => do
    let pos ← decodeVec2 jpos
    let r ← decodeF32 jr
    pure ⟨pos, r⟩
  | _ => none

/-- Deserialization of a sequence of `RemoteState` elements, element by
element; the first failing element fails the whole sequence. -/
def decodeStateSeq : List Json → Option (List RemoteState)
  | [] => some []
  | j :: rest => do
    let s ← decodeRemoteState j
    let others ← decodeStateSeq rest
    pure (s :: others)

/-- Deserialization of a `Vec<RemoteState>`. -/
def decodeRemoteStates : Json → Option (List RemoteState)
  | .arr elems => decodeStateSeq elems
  | _ => none

/-- serde deserialization of a `ServerMessage` (externally tagged enum). -/
def decodeServer : Json → Option ServerMessage
  | .obj [(tag, payload)] =>
    if tag = "Welcome" then (decodeUsize payload).map .Welcome
    else if tag = "GoodBye" then (decodeUsize payload).map .GoodBye
    else if tag = "Update" then (decodeRemoteStates payload).map .Update
    else none
  | _ => none

/-- serde deserialization of a `ClientMessage`. -/
def decodeClient : Json → Option ClientMessage
  | .obj [(tag, payload)] =>
    if tag = "State" then (decodeState payload).map .State else none
  | _ => none

/-- The variant tag a frame carries: the single key of the top-level
object.  This is computed from the frame alone, with no external context. -/
def msgTag : Json → Option String
  | .obj [(tag, _)] => some tag
  | _ => none

/-- An `F32` is finite when it is not `nan`, `inf` or `neginf`. -/
def F32.isFinite : F32 → Bool
  | .finite _ => true
  | _ => false

/-- All float components of a `RemoteState` are finite. -/
def RemoteState.allFinite (s : RemoteState) : Bool :=
  s.position.x.isFinite && s.position.y.isFinite && s.rotation.isFinite

/-- All float components of a `ServerMessage` are finite. -/
def ServerMessage.allFinite : ServerMessage → Bool
  | .Welcome _ => true
  | .GoodBye _ => true
  | .Update xs => xs.all RemoteState.allFinite

/-- All float components of a `ClientMessage` are finite. -/
def ClientMessage.allFinite : ClientMessage → Bool
  | .State s => s.pos.x.isFinite && s.pos.y.isFinite && s.r.isFinite

/-! ## Channels and the outbound path -/

/-- Model of the per-connection `OutBoundChannel`
(`tokio::sync::mpsc::UnboundedSender`): the queue of frames not yet drained
by the forwarder task, plus a flag recording whether the receiver has been
dropped.  `create_send_channel` (main.rs:113-130) spawns a forwarder that
drains the receiver into the websocket sink; when a transport write fails
the forwarder logs the error and finishes, dropping the receiver, after
which the channel is closed. -/
structure Channel where
  queue : List Json
  closed : Bool

/-- Model of `UnboundedSender::send`: appends to the queue whenever the receiver is
alive, whatever the queue already holds (the channel is unbounded, so there
is no capacity test and the call never blocks); returns `Err(SendError)`
exactly when the receiver has been dropped. -/
def channelSend (c : Channel) (frame : Json) : Except Unit Channel :=
  if c.closed then .error () else .ok { c with queue := c.queue ++ [frame] }

/-- Model of `send_msg` (main.rs:37-43): serialize the message with serde_json, wrap
it in a binary websocket message and `tx.send(Ok(msg)).unwrap()`.  The
`unwrap` turns a `SendError` into a panic of the calling task, modelled by
`none`. -/
def send_msg (c : Channel) (m : ServerMessage) : Option Channel :=
  match channelSend c (encodeServer m) with
  | .ok c2 => some c2
  | .error _ => none

/-! ## The two shared maps -/

/-- Association-list model of `HashMap<usize, V>`.  `mapRemove` is
`HashMap::remove` restricted to its effect on the mapping. -/
def mapRemove {V : Type} (k : Nat) (m : List (Nat × V)) : List (Nat × V) :=
  m.filter (fun p => p.1 ≠ k)

/-- Model of `HashMap::insert`: the new binding replaces any previous binding of the
same key. -/
def mapInsert {V : Type} (k : Nat) (v : V) (m : List (Nat × V)) :
    List (Nat × V) :=
  (k, v) :: mapRemove k m

/-- Key lookup in the association-list map. -/
def mapFind {V : Type} (k : Nat) (m : List (Nat × V)) : Option V :=
  (m.find? (fun p => p.1 = k)).map (·.2)

/-- The key set of a map. -/
def mapKeys {V : Type} (m : List (Nat × V)) : List Nat :=
  m.map (·.1)

/-- Type `Users = Arc<RwLock<HashMap<usize, OutBoundChannel>>>` (main.rs:171). -/
abbrev UsersMap := List (Nat × Channel)

/-- Type `States = Arc<RwLock<HashMap<usize, RemoteState>>>` (main.rs:172). -/
abbrev StatesMap := List (Nat × RemoteState)

/-! ## Inbound path: parsing and the per-connection read loop -/

/-- An inbound websocket message: a binary frame whose bytes parse as a
JSON document, a binary frame whose bytes are not valid JSON, or a
non-binary message (text, ping, pong, close frame). -/
inductive Frame where
  | binary (doc : Json)
  | binaryMalformed
  | nonBinary

/-- Model of `parse_message` (main.rs:82-89): only binary frames are considered, and
their bytes must deserialize as a `ClientMessage`; every failure yields
`None` via `.ok()`. -/
def parse_message : Frame → Option ClientMessage
  | .binary doc => decodeClient doc
  | .binaryMalformed => none
  | .nonBinary => none

/-- Model of `user_message` (main.rs:91-102): a `State` report is stored under the
id of the connection it arrived on, building the `RemoteState` from that id
and the reported position and rotation; the insert always overwrites. -/
def user_message (my_id : Nat) (msg : ClientMessage) (states : StatesMap) :
    StatesMap :=
  match msg with
  | .State s => mapInsert my_id ⟨my_id, s.pos, s.r⟩ states

/-- One iteration of the read loop of `user_connected` (main.rs:58-72) on a
successfully received frame: parse it, and feed a parsed message to
`user_message`; a frame that fails to parse is dropped. -/
def handleFrame (my_id : Nat) (f : Frame) (states : StatesMap) : StatesMap :=
  match parse_message f with
  | some m => user_message my_id m states
  | none => states

/-- The read loop of `user_connected` (main.rs:58-72) over a finite inbound
sequence, each item a received frame or a websocket error.  Returns the
final state store and whether the loop was left by an error (`true`) or by
the stream ending (`false`); either way the handler then proceeds to the
disconnect cleanup. -/
def readLoop (my_id : Nat) (inbound : List (Except Unit Frame))
    (states : StatesMap) : StatesMap × Bool :=
  match inbound with
  | [] => (states, false)
  | .error _ :: _ => (states, true)
  | .ok f :: rest => readLoop my_id rest (handleFrame my_id f states)

/-! ## Connection setup and teardown -/

/-- The id allocator: `NEXT_USER_ID` is an `AtomicUsize` initialized to `1`
(main.rs:132) and advanced by `fetch_add(1, Relaxed)` (main.rs:135).  A
`fetch_add` is atomic, so even concurrent allocations form a sequence; the
value returned by the allocation of index `i` (counting from 0) is the
counter value after `i` previous increments.  `AtomicUsize::fetch_add`
wraps on overflow, hence the explicit `% 2^64` (usize on a 64-bit target). -/
def nthId (i : Nat) : Nat :=
  (1 + i) % 2 ^ 64

/-- The ids handed out by the first `n` allocations, in allocation order. -/
def allocIds (n : Nat) : List Nat :=
  (List.range n).map nthId

/-- The order of the connection-setup steps in `user_connected`
(main.rs:45-56): `send_welcome` first allocates the id (main.rs:135) and
then sends `Welcome(id)` on the fresh channel (main.rs:139); only after
`send_welcome` returns does the handler insert the channel into `users`
(main.rs:56). -/
inductive InitStep where
  | allocId
  | sendWelcome
  | register
deriving DecidableEq, Repr

/-- The setup steps of `user_connected`, in program order. -/
def user_connected_init_order : List InitStep :=
  [.allocId, .sendWelcome, .register]

/-- Connection setup (main.rs:45-56) acting on the registry: allocate the
id, enqueue `Welcome(id)` on the fresh (open, empty) outbound channel, and
then register the channel under the id.  Returns the allocated id and the
updated registry. -/
def connectInit (freshId : Nat) (users : UsersMap) : Nat × UsersMap :=
  let ch : Channel := ⟨[], false⟩
  let ch2 : Channel := ⟨ch.queue ++ [encodeServer (.Welcome freshId)], false⟩
  (freshId, mapInsert freshId ch2 users)

/-- Iterating a registry and calling `send_msg` on every channel, in
iteration order: the shape shared by the loop body of `update_loop`
(main.rs:149-164) and by `broadcast` (main.rs:104-109).  Each successful
send appends the encoded message to that channel queue; the first dead
channel makes `send_msg` panic (the `unwrap` of main.rs:42), which aborts
the iteration in the calling task: recipients from the dead channel on
keep their queues untouched.  Returns the registry with whatever
enqueueing happened, and whether the iteration panicked. -/
def sendToAll (mkMsg : Nat → ServerMessage) : UsersMap → UsersMap × Bool
  | [] => ([], false)
  | (uid, ch) :: rest =>
    match send_msg ch (mkMsg uid) with
    | some ch2 =>
      let r := sendToAll mkMsg rest
      ((uid, ch2) :: r.1, r.2)
    | none => ((uid, ch) :: rest, true)

/-- Disconnect cleanup of `user_connected` (main.rs:74-79): remove the id
from `users`, remove it from `states`, then `broadcast(GoodBye(id))`
(main.rs:104-109), which iterates the registry as it is after the removal
and calls `send_msg` on every channel in it.  Returns the registry after
the broadcast together with the panic flag of the broadcast iteration,
and the new state store. -/
def disconnect (my_id : Nat) (users : UsersMap) (states : StatesMap) :
    (UsersMap × Bool) × StatesMap :=
  let users2 := mapRemove my_id users
  let states2 := mapRemove my_id states
  (sendToAll (fun _ => .GoodBye my_id) users2, states2)

/-! ## The broadcast loop -/

/-- The snapshot taken by `update_loop` (main.rs:146):
`states.read().await.values().cloned().collect()`. -/
def snapshot (states : StatesMap) : List RemoteState :=
  states.map (·.2)

/-- One tick of `update_loop` (main.rs:144-169): if the snapshot is empty
nothing is sent (`if !states.is_empty()`, main.rs:148); otherwise the loop
sends to every registered connection the snapshot filtered by
`state.id == uid → drop` (the `filter_map` of main.rs:150-159) wrapped in
`Update`, via `send_msg` on that connection channel.  Returns the registry
with the enqueued frames and whether the tick panicked on a dead channel
(a panic kills the `update_loop` task spawned at main.rs:184). -/
def update_tick (users : UsersMap) (states : StatesMap) : UsersMap × Bool :=
  let snap := snapshot states
  if snap.isEmpty then (users, false)
  else sendToAll (fun uid => .Update (snap.filter (fun s => s.id ≠ uid))) users

/-! ## The client (`src/ch_04/game/src/main.rs`) -/

/-- The fields of `Game` (main.rs:10-15) that the message handler can
touch.  The `texture` field is a GPU texture handle, pure presentation
state never read or written by `handle_message`; it has no counterpart
here. -/
structure Game where
  quit : Bool
  player_state : RemoteState
  remote_states : List RemoteState
deriving DecidableEq, Repr

/-- Model of `Game::handle_message` (main.rs:103-115): `Welcome` overwrites the own
player id, `GoodBye` retains the remote states whose id differs, `Update`
replaces the remote state list wholesale. -/
def handle_message (g : Game) (m : ServerMessage) : Game :=
  match m with
  | .Welcome id => { g with player_state := { g.player_state with id := id } }
  | .GoodBye id =>
    { g with remote_states := g.remote_states.filter (fun s => s.id ≠ id) }
  | .Update remote_states => { g with remote_states := remote_states }

/-! ## Shared invariants and helper lemmas -/

/-- Invariant of the state store: every stored `RemoteState` carries the
key it is stored under as its `id` field. -/
def StoreInv (states : StatesMap) : Prop :=
  ∀ p ∈ states, (p : Nat × RemoteState).2.id = p.1

/-- Removal never adds keys. -/
theorem mapKeys_mapRemove_subset {V : Type} (k : Nat) (m : List (Nat × V)) :
    ∀ x ∈ mapKeys (mapRemove k m), x ∈ mapKeys m := by
  intro x hx
  simp only [mapKeys, mapRemove, List.mem_map] at hx ⊢
  obtain ⟨p, hp, hpx⟩ := hx
  exact ⟨p, (List.mem_filter.mp hp).1, hpx⟩

/-- The removed key is gone from the map. -/
theorem not_mem_mapKeys_mapRemove {V : Type} (k : Nat) (m : List (Nat × V)) :
    k ∉ mapKeys (mapRemove k m) := by
  intro hk
  simp only [mapKeys, mapRemove, List.mem_map] at hk
  obtain ⟨p, hp, hpk⟩ := hk
  have := (List.mem_filter.mp hp).2
  simp only [ne_eq, decide_not, Bool.not_eq_true', decide_eq_false_iff_not] at this
  exact this hpk

/-- Removing an absent key is the identity on the mapping. -/
theorem mapRemove_of_not_mem {V : Type} (k : Nat) (m : List (Nat × V))
    (h : k ∉ mapKeys m) : mapRemove k m = m := by
  unfold mapRemove
  apply List.filter_eq_self.mpr
  intro p hp
  simp only [ne_eq, decide_not, Bool.not_eq_false', decide_eq_true_eq,
    Bool.not_eq_true', decide_eq_false_iff_not]
  intro hk
  exact h (List.mem_map.mpr ⟨p, hp, hk⟩)

/-- Removal of the same key twice equals removal once. -/
theorem mapRemove_idem {V : Type} (k : Nat) (m : List (Nat × V)) :
    mapRemove k (mapRemove k m) = mapRemove k m := by
  unfold mapRemove
  apply List.filter_eq_self.mpr
  intro p hp
  exact (List.mem_filter.mp hp).2

/-- Claim C7 (confirmed).  Removing an id absent from the Registry or from
the Shared State Store leaves the mapping unchanged and raises no error
(removal is total), and removal is idempotent on both maps. -/
theorem C7_remove_idempotent (k : Nat) (users : UsersMap) (states : StatesMap)
    (hu : k ∉ mapKeys users) (hs : k ∉ mapKeys states) :
    mapRemove k users = users ∧ mapRemove k states = states ∧
    mapRemove k (mapRemove k users) = mapRemove k users ∧
    mapRemove k (mapRemove k states) = mapRemove k states :=
  ⟨mapRemove_of_not_mem k users hu, mapRemove_of_not_mem k states hs,
   mapRemove_idem k users, mapRemove_idem k states⟩

/-- An open, empty outbound channel. -/
def exChannel : Channel := ⟨[], false⟩

/-- A sample stored remote state. -/
def exRemote : RemoteState := ⟨1, ⟨.finite 10, .finite 10⟩, .finite 0⟩

/-- A one-connection registry. -/
def exUsers1 : UsersMap := [(1, exChannel)]

/-- A one-entry state store. -/
def exStates1 : StatesMap := [(1, exRemote)]

/-- Witness for C7 at a concrete registry and store. -/
theorem C7_witness :
    mapRemove 2 exUsers1 = exUsers1 ∧ mapRemove 2 exStates1 = exStates1 ∧
    mapRemove 2 (mapRemove 2 exUsers1) = mapRemove 2 exUsers1 ∧
    mapRemove 2 (mapRemove 2 exStates1) = mapRemove 2 exStates1 :=
  C7_remove_idempotent 2 exUsers1 exStates1 (by decide) (by decide)

/-- A channel whose forwarder task has stopped (after a websocket write
error) and whose receiver is therefore dropped. -/
def deadChannel : Channel := ⟨[], true⟩

/-- Counterexample to claim C2 as stated.  A send into a dead channel is
not a void operation: `UnboundedSender::send` returns `Err(SendError)`
when the receiver is gone, and `send_msg` (main.rs:42) calls `.unwrap()`
on that result, so the sending task panics (modelled by `none`). -/
theorem C2_counterexample :
    send_msg deadChannel (ServerMessage.Welcome 1) = none ∧
    channelSend deadChannel (encodeServer (ServerMessage.Welcome 1)) =
      .error () := by
  exact ⟨rfl, rfl⟩

/-- Claim C2 (amended).  Enqueueing on a live outbound channel never fails
and is unaffected by the queue contents (the channel is unbounded, so the
call never blocks on a slow receiver); but a send into a dead channel, far
from being a void operation, makes `send_msg` panic in the sender via the
`unwrap` of the `SendError`. -/
theorem C2_send_semantics (c : Channel) (m : ServerMessage) :
    (c.closed = false →
      send_msg c m = some ⟨c.queue ++ [encodeServer m], false⟩) ∧
    (c.closed = true → send_msg c m = none) := by
  obtain ⟨q, cl⟩ := c
  constructor <;> intro h <;> subst h <;> simp [send_msg, channelSend]

/-- Witness for C2 at a concrete live channel and a concrete dead one. -/
theorem C2_witness :
    send_msg ⟨[], false⟩ (ServerMessage.GoodBye 2) =
      some ⟨[encodeServer (ServerMessage.GoodBye 2)], false⟩ ∧
    send_msg ⟨[], true⟩ (ServerMessage.GoodBye 2) = none :=
  ⟨(C2_send_semantics ⟨[], false⟩ (ServerMessage.GoodBye 2)).1 rfl,
   (C2_send_semantics ⟨[], true⟩ (ServerMessage.GoodBye 2)).2 rfl⟩

/-- Claim C10 (confirmed).  On the client, `Welcome(id)` writes only the id
field of `player_state`; `GoodBye(id)` removes exactly the remote states
carrying that id; `Update(list)` replaces the remote state list wholesale;
in each case every other field of `Game` is left unchanged. -/
theorem C10_handle_message_frame (g : Game) :
    (∀ id : Nat,
      (handle_message g (.Welcome id)).player_state.id = id ∧
      (handle_message g (.Welcome id)).player_state.position =
        g.player_state.position ∧
      (handle_message g (.Welcome id)).player_state.rotation =
        g.player_state.rotation ∧
      (handle_message g (.Welcome id)).remote_states = g.remote_states ∧
      (handle_message g (.Welcome id)).quit = g.quit) ∧
    (∀ id : Nat,
      (handle_message g (.GoodBye id)).remote_states =
        g.remote_states.filter (fun s => s.id ≠ id) ∧
      (handle_message g (.GoodBye id)).player_state = g.player_state ∧
      (handle_message g (.GoodBye id)).quit = g.quit) ∧
    (∀ remote_states : List RemoteState,
      (handle_message g (.Update remote_states)).remote_states =
        remote_states ∧
      (handle_message g (.Update remote_states)).player_state =
        g.player_state ∧
      (handle_message g (.Update remote_states)).quit = g.quit) := by
  refine ⟨fun id => ?_, fun id => ?_, fun rs => ?_⟩ <;>
    simp [handle_message]

/-- Claim C6 (confirmed).  A frame that fails to parse as a `ClientMessage`
is dropped: the state store is unchanged, the read loop goes on with the
remaining inbound sequence instead of breaking, and a later valid `State`
frame on the same connection is still decoded and applied. -/
theorem C6_malformed_frame_dropped (my_id : Nat) (states : StatesMap)
    (f : Frame) (hf : parse_message f = none) :
    handleFrame my_id f states = states ∧
    (∀ rest : List (Except Unit Frame),
      readLoop my_id (.ok f :: rest) states = readLoop my_id rest states) ∧
    (∀ (g : Frame) (m : ClientMessage), parse_message g = some m →
      readLoop my_id [.ok f, .ok g] states =
        (user_message my_id m states, false)) := by
  have h1 : handleFrame my_id f states = states := by
    simp [handleFrame, hf]
  refine ⟨h1, fun rest => ?_, fun g m hg => ?_⟩
  · simp [readLoop, h1]
  · simp [readLoop, h1, handleFrame, hf, hg]

/-- A sample valid client report. -/
def exReport : ClientMessage := .State ⟨⟨.finite 3, .finite 4⟩, .finite 1⟩

/-- Witness for C6: a malformed binary frame followed by a valid report. -/
theorem C6_witness :
    parse_message Frame.binaryMalformed = none ∧
    readLoop 7
      [.ok Frame.binaryMalformed, .ok (Frame.binary (encodeClient exReport))]
      [] = (user_message 7 exReport [], false) :=
  ⟨rfl,
   (C6_malformed_frame_dropped 7 [] Frame.binaryMalformed rfl).2.2
     (Frame.binary (encodeClient exReport)) exReport rfl⟩

/-- The empty store satisfies the key invariant. -/
theorem storeInv_nil : StoreInv [] := by
  intro p hp
  cases hp

/-- Removal preserves the key invariant of the store. -/
theorem storeInv_mapRemove (k : Nat) (states : StatesMap)
    (h : StoreInv states) : StoreInv (mapRemove k states) :=
  fun p hp => h p (List.mem_filter.mp hp).1

/-- Upserting via `user_message` preserves the key invariant: the inserted entry is built
from the id of the connection it arrived on, which is also its key. -/
theorem storeInv_user_message (my_id : Nat) (msg : ClientMessage)
    (states : StatesMap) (h : StoreInv states) :
    StoreInv (user_message my_id msg states) := by
  cases msg with
  | State s =>
    intro p hp
    rcases List.mem_cons.mp hp with h1 | h2
    · subst h1; rfl
    · exact h p (List.mem_filter.mp h2).1

/-- Under the key invariant, the broadcast filter on the snapshot computes
the snapshot of the store with the recipient entry removed. -/
theorem snapshot_filter_of_inv (uid : Nat) :
    ∀ states : StatesMap, StoreInv states →
      (snapshot states).filter (fun s => s.id ≠ uid) =
        snapshot (mapRemove uid states)
  | [], _ => rfl
  | p :: rest, hinv => by
    have hp : p.2.id = p.1 := hinv p (List.mem_cons_self p rest)
    have hrest : StoreInv rest := fun q hq => hinv q (List.mem_cons_of_mem p hq)
    have ih := snapshot_filter_of_inv uid rest hrest
    simp only [snapshot, mapRemove, List.map_cons, List.filter_cons, ne_eq,
      decide_not] at ih ⊢
    rw [hp]
    by_cases h : p.1 = uid
    · simp [h, ih]
    · simp [h, ih]

/-- Claim C9 (confirmed).  Every key of the Shared State Store maps to a
`RemoteState` whose id field is that key: the invariant holds for the
initial empty store and is preserved by every upsert (`user_message`) and
every remove; consequently the broadcast filter comparing `state.id` with
the recipient id drops exactly the entry stored under the recipient key. -/
theorem C9_store_id_invariant (states : StatesMap) (hinv : StoreInv states) :
    StoreInv ([] : StatesMap) ∧
    (∀ (my_id : Nat) (msg : ClientMessage),
      StoreInv (user_message my_id msg states)) ∧
    (∀ k : Nat, StoreInv (mapRemove k states)) ∧
    (∀ uid : Nat,
      (snapshot states).filter (fun s => s.id ≠ uid) =
        snapshot (mapRemove uid states)) :=
  ⟨storeInv_nil,
   fun my_id msg => storeInv_user_message my_id msg states hinv,
   fun k => storeInv_mapRemove k states hinv,
   fun uid => snapshot_filter_of_inv uid states hinv⟩

/-- Witness for C9 at a concrete one-entry store. -/
theorem C9_witness :
    StoreInv exStates1 ∧
    (snapshot exStates1).filter (fun s => s.id ≠ 1) =
      snapshot (mapRemove 1 exStates1) := by
  have h : StoreInv exStates1 := by unfold StoreInv; decide
  exact ⟨h, (C9_store_id_invariant exStates1 h).2.2.2 1⟩

/-- Enqueueing through `send_msg` on a live channel appends the encoded
frame and leaves the channel live. -/
theorem send_msg_of_open (c : Channel) (m : ServerMessage)
    (h : c.closed = false) :
    send_msg c m = some ⟨c.queue ++ [encodeServer m], false⟩ := by
  obtain ⟨q, cl⟩ := c
  subst h
  simp [send_msg, channelSend]

/-- When every channel of the registry is live, the send-to-all iteration
panics nowhere and appends to every channel exactly the encoded message
for its key. -/
theorem sendToAll_all_live (mkMsg : Nat → ServerMessage) :
    ∀ users : UsersMap,
      (∀ p ∈ users, (p : Nat × Channel).2.closed = false) →
      sendToAll mkMsg users = (users.map (fun p =>
        (p.1, ⟨p.2.queue ++ [encodeServer (mkMsg p.1)], false⟩)), false) := by
  intro users
  induction users with
  | nil =>
    intro _
    rfl
  | cons p rest ih =>
    intro hlive
    obtain ⟨uid, ch⟩ := p
    have hp : ch.closed = false := hlive (uid, ch) (List.mem_cons_self _ _)
    have hrest := fun q hq => hlive q (List.mem_cons_of_mem (uid, ch) hq)
    simp [sendToAll, send_msg_of_open ch (mkMsg uid) hp, ih hrest]

/-- Rewriting every value of a keyed map keeps the key list. -/
theorem mapKeys_map_fst_pair {V W : Type} (f : Nat × V → W)
    (l : List (Nat × V)) :
    mapKeys (l.map (fun p => (p.1, f p))) = mapKeys l := by
  unfold mapKeys
  rw [List.map_map]
  exact List.map_congr_left (fun p _ => rfl)

/-- A two-connection registry, both channels live. -/
def exUsers2 : UsersMap := [(1, exChannel), (2, exChannel)]

/-- A registry in which the channel of connection 1 is dead (its forwarder
stopped on a write error before the read loop of connection 1 noticed)
while connection 2 is live. -/
def exUsersDead : UsersMap := [(1, deadChannel), (2, exChannel)]

/-- Counterexample to claim C1 as stated.  A dead channel can still be
registered; on the next non-empty tick `send_msg` hits it and panics (the
`unwrap` of main.rs:42), aborting the iteration of main.rs:149-164 inside
the `update_loop` task: the registered connection 2 is enqueued no
`Update` at all on that tick, and the panic kills the broadcast loop. -/
theorem C1_counterexample :
    exStates1 ≠ [] ∧ 2 ∈ mapKeys exUsersDead ∧
    (update_tick exUsersDead exStates1).2 = true ∧
    mapFind 2 (update_tick exUsersDead exStates1).1 = some exChannel ∧
    exChannel.queue = [] :=
  ⟨by decide, by decide, rfl, rfl, rfl⟩

/-- Claim C1 (amended).  On a broadcast tick on which every registered
channel is live: an empty store snapshot sends nothing and leaves the
registry untouched; a non-empty snapshot panics nowhere and appends to
every registered connection queue exactly one `Update` frame whose list is
the snapshot filtered by the recipient id — it excludes every state
carrying the recipient id, includes the stored state of every other key,
and is the explicit empty list when the recipient is the only stored key.
(With a dead channel still registered, the tick instead panics
mid-iteration and later recipients get nothing, as the counterexample
exhibits.) -/
theorem C1_broadcast_tick (users : UsersMap) (states : StatesMap)
    (hlive : ∀ p ∈ users, (p : Nat × Channel).2.closed = false)
    (hinv : StoreInv states) :
    (states = [] → update_tick users states = (users, false)) ∧
    (states ≠ [] →
      (update_tick users states).2 = false ∧
      (update_tick users states).1 = users.map (fun p =>
        (p.1, ⟨p.2.queue ++ [encodeServer (ServerMessage.Update
          ((snapshot states).filter (fun s => s.id ≠ p.1)))], false⟩)) ∧
      (∀ uid : Nat,
        (∀ s ∈ (snapshot states).filter (fun s => s.id ≠ uid),
          s.id ≠ uid) ∧
        (∀ q ∈ states, (q : Nat × RemoteState).1 ≠ uid →
          q.2 ∈ (snapshot states).filter (fun s => s.id ≠ uid))) ∧
      (∀ uid : Nat, (∀ q ∈ states, (q : Nat × RemoteState).1 = uid) →
        (snapshot states).filter (fun s => s.id ≠ uid) = [])) := by
  constructor
  · intro h
    subst h
    rfl
  · intro hne
    have hE : (snapshot states).isEmpty = false := by
      cases states with
      | nil => exact absurd rfl hne
      | cons q rest => rfl
    have hut : update_tick users states = sendToAll
        (fun uid => .Update
          ((snapshot states).filter (fun s => s.id ≠ uid))) users := by
      simp [update_tick, hE]
    have hsend := sendToAll_all_live
      (fun uid => ServerMessage.Update
        ((snapshot states).filter (fun s => s.id ≠ uid))) users hlive
    refine ⟨?_, ?_, ?_, ?_⟩
    · rw [hut, hsend]
    · rw [hut, hsend]
    · intro uid
      constructor
      · intro s hs
        have hpred := (List.mem_filter.mp hs).2
        simpa using hpred
      · intro q hq hquid
        apply List.mem_filter.mpr
        refine ⟨List.mem_map.mpr ⟨q, hq, rfl⟩, ?_⟩
        have hqid : q.2.id = q.1 := hinv q hq
        simp [hqid, hquid]
    · intro uid hall
      rw [List.filter_eq_nil_iff]
      intro s hs
      obtain ⟨q, hq, rfl⟩ := List.mem_map.mp hs
      have hq1 : q.2.id = q.1 := hinv q hq
      have hq2 : q.1 = uid := hall q hq
      simp [hq1, hq2]

/-- Witness for C1: both registered channels live, only connection 1
stored; connection 2 gets exactly one update listing connection 1, and
connection 1 gets the explicit empty update. -/
theorem C1_witness :
    (update_tick exUsers2 exStates1).2 = false ∧
    (update_tick exUsers2 exStates1).1 =
      [(1, ⟨[encodeServer (ServerMessage.Update [])], false⟩),
       (2, ⟨[encodeServer (ServerMessage.Update [exRemote])], false⟩)] := by
  have hinvex : StoreInv exStates1 := by unfold StoreInv; decide
  have hl : ∀ p ∈ exUsers2, (p : Nat × Channel).2.closed = false := by
    decide
  have h := (C1_broadcast_tick exUsers2 exStates1 hl hinvex).2 (by decide)
  exact ⟨h.1, (h.2.1).trans rfl⟩

/-- An operation on the Shared State Store performed by a connection
handler after some other connection has gone: an upsert from a `State`
report (`user_message`) or a removal during a disconnect cleanup. -/
inductive StoreOp where
  | upsert (id : Nat) (msg : ClientMessage)
  | remove (id : Nat)
deriving Repr

/-- Whether the operation writes an entry under key `x`: only an upsert by
connection `x` itself does. -/
def opWritesId (x : Nat) : StoreOp → Bool
  | .upsert id _ => id = x
  | .remove _ => false

/-- Apply one store operation. -/
def applyStoreOp (op : StoreOp) (states : StatesMap) : StatesMap :=
  match op with
  | .upsert id msg => user_message id msg states
  | .remove id => mapRemove id states

/-- Apply a sequence of store operations, oldest first. -/
def applyStoreOps (ops : List StoreOp) (states : StatesMap) : StatesMap :=
  ops.foldl (fun st op => applyStoreOp op st) states

/-- A key absent from the store stays absent under any operation that does
not write it. -/
theorem not_mem_applyStoreOp (x : Nat) (op : StoreOp) (st : StatesMap)
    (hx : x ∉ mapKeys st) (hop : opWritesId x op = false) :
    x ∉ mapKeys (applyStoreOp op st) := by
  cases op with
  | upsert id msg =>
    cases msg with
    | State s =>
      intro hmem
      simp only [applyStoreOp, user_message, mapInsert, mapKeys,
        List.map_cons, List.mem_cons] at hmem
      rcases hmem with h1 | h2
      · subst h1
        simp [opWritesId] at hop
      · exact hx (mapKeys_mapRemove_subset id st x h2)
  | remove k =>
    intro hmem
    exact hx (mapKeys_mapRemove_subset k st x hmem)

/-- A key absent from the store stays absent under any operation sequence
that never writes it. -/
theorem not_mem_applyStoreOps (x : Nat) :
    ∀ (ops : List StoreOp) (st : StatesMap), x ∉ mapKeys st →
      (∀ op ∈ ops, opWritesId x op = false) →
      x ∉ mapKeys (applyStoreOps ops st)
  | [], st, hx, _ => hx
  | op :: rest, st, hx, hops => by
    have h1 := not_mem_applyStoreOp x op st hx
      (hops op (List.mem_cons_self op rest))
    have h2 := fun o ho => hops o (List.mem_cons_of_mem op ho)
    exact not_mem_applyStoreOps x rest (applyStoreOp op st) h1 h2

/-- Store operations preserve the key invariant. -/
theorem storeInv_applyStoreOps :
    ∀ (ops : List StoreOp) (st : StatesMap), StoreInv st →
      StoreInv (applyStoreOps ops st)
  | [], _, h => h
  | op :: rest, st, h => by
    have h1 : StoreInv (applyStoreOp op st) := by
      cases op with
      | upsert id msg => exact storeInv_user_message id msg st h
      | remove k => exact storeInv_mapRemove k st h
    exact storeInv_applyStoreOps rest (applyStoreOp op st) h1

/-- A registry in which the remaining connection 2 has a dead channel and
the remaining connection 3 a live one, while connection 1 disconnects. -/
def exUsersMixed : UsersMap :=
  [(1, exChannel), (2, deadChannel), (3, exChannel)]

/-- Counterexample to claim C5 as stated.  If a remaining registered
channel is dead, the goodbye broadcast of main.rs:104-109 panics at it
(the `unwrap` of main.rs:42) and aborts mid-iteration inside the
disconnecting handler task: the remaining registered connection 3 never
receives `GoodBye(1)`. -/
theorem C5_counterexample :
    3 ∈ mapKeys (mapRemove 1 exUsersMixed) ∧
    (disconnect 1 exUsersMixed exStates1).1.2 = true ∧
    mapFind 3 (disconnect 1 exUsersMixed exStates1).1.1 = some exChannel ∧
    exChannel.queue = [] :=
  ⟨by decide, rfl, rfl, rfl⟩

/-- Claim C5 (amended).  When connection `x` closes and every remaining
registered channel is live, the handler removes `x` from the Registry and
from the Shared State Store (both removals precede the broadcast) and then
broadcasts `GoodBye(x)` without panicking: every remaining registered
connection gets exactly one `GoodBye(x)` frame appended to its queue, `x`
is no longer registered so it gets none, and under any later store
operations not performed by `x` (ids are never reused, so none are) the
state of `x` is absent from every subsequent snapshot.  (With a dead
remaining channel the broadcast instead panics mid-iteration and later
recipients get no goodbye, as the counterexample exhibits.) -/
theorem C5_disconnect_cleanup (x : Nat) (users : UsersMap)
    (states : StatesMap)
    (hlive : ∀ p ∈ users, (p : Nat × Channel).1 ≠ x → p.2.closed = false)
    (hinv : StoreInv states) :
    x ∉ mapKeys (disconnect x users states).1.1 ∧
    x ∉ mapKeys (disconnect x users states).2 ∧
    (disconnect x users states).1.2 = false ∧
    (disconnect x users states).1.1 = (mapRemove x users).map (fun p =>
      (p.1, ⟨p.2.queue ++ [encodeServer (ServerMessage.GoodBye x)],
        false⟩)) ∧
    (∀ uid ∈ mapKeys users, uid ≠ x →
      uid ∈ mapKeys (disconnect x users states).1.1) ∧
    (∀ ops : List StoreOp, (∀ op ∈ ops, opWritesId x op = false) →
      x ∉ mapKeys (applyStoreOps ops (disconnect x users states).2) ∧
      ∀ s ∈ snapshot (applyStoreOps ops (disconnect x users states).2),
        s.id ≠ x) := by
  have hlive2 : ∀ p ∈ mapRemove x users,
      (p : Nat × Channel).2.closed = false := by
    intro p hp
    have h1 := (List.mem_filter.mp hp).1
    have h2 := (List.mem_filter.mp hp).2
    exact hlive p h1 (by simpa using h2)
  have hsend := sendToAll_all_live (fun _ => ServerMessage.GoodBye x)
    (mapRemove x users) hlive2
  have hdis1 : (disconnect x users states).1 = sendToAll
      (fun _ => ServerMessage.GoodBye x) (mapRemove x users) := rfl
  have hdis2 : (disconnect x users states).2 = mapRemove x states := rfl
  refine ⟨?_, ?_, ?_, ?_, ?_, ?_⟩
  · rw [hdis1, hsend, mapKeys_map_fst_pair]
    exact not_mem_mapKeys_mapRemove x users
  · rw [hdis2]
    exact not_mem_mapKeys_mapRemove x states
  · rw [hdis1, hsend]
  · rw [hdis1, hsend]
  · intro uid hmem hne
    rw [hdis1, hsend, mapKeys_map_fst_pair]
    simp only [mapKeys] at hmem
    obtain ⟨a, ha, hak⟩ := List.mem_map.mp hmem
    have hax : a.1 ≠ x := by
      rw [hak]
      exact hne
    apply List.mem_map.mpr
    exact ⟨a, List.mem_filter.mpr ⟨ha, by simpa using hax⟩, hak⟩
  · intro ops hops
    rw [hdis2]
    have hx : x ∉ mapKeys (mapRemove x states) :=
      not_mem_mapKeys_mapRemove x states
    have habs := not_mem_applyStoreOps x ops (mapRemove x states) hx hops
    have hinv2 := storeInv_applyStoreOps ops (mapRemove x states)
      (storeInv_mapRemove x states hinv)
    refine ⟨habs, ?_⟩
    intro s hs
    obtain ⟨q, hq, rfl⟩ := List.mem_map.mp hs
    have hq1 : q.2.id = q.1 := hinv2 q hq
    rw [hq1]
    intro hqx
    exact habs (List.mem_map.mpr ⟨q, hq, hqx⟩)

/-- Witness for C5: connection 1 disconnects while 1 and 2 are registered
with live channels and only 1 is stored; connection 2 gets exactly one
goodbye, and connection 2 then reports its own state without resurrecting
the departed entry. -/
theorem C5_witness :
    1 ∉ mapKeys (disconnect 1 exUsers2 exStates1).1.1 ∧
    (disconnect 1 exUsers2 exStates1).1.2 = false ∧
    (disconnect 1 exUsers2 exStates1).1.1 =
      [(2, ⟨[encodeServer (ServerMessage.GoodBye 1)], false⟩)] ∧
    1 ∉ mapKeys (applyStoreOps [.upsert 2 exReport]
      (disconnect 1 exUsers2 exStates1).2) := by
  have hinvex : StoreInv exStates1 := by unfold StoreInv; decide
  have hl : ∀ p ∈ exUsers2, (p : Nat × Channel).1 ≠ 1 →
      p.2.closed = false := by
    decide
  have h := C5_disconnect_cleanup 1 exUsers2 exStates1 hl hinvex
  exact ⟨h.1, h.2.2.1, (h.2.2.2.1).trans rfl,
    (h.2.2.2.2.2 [.upsert 2 exReport] (by decide)).1⟩

/-- Counterexample to claim C3 as stated.  `AtomicUsize::fetch_add` wraps
on overflow, so over the whole process lifetime the allocator is not
0-free and not duplicate-free: the allocation of index `2^64 - 1` (the
2^64-th connection) is handed the id `0`. -/
theorem C3_counterexample :
    nthId (2 ^ 64 - 1) = 0 ∧ (0 : Nat) ∈ allocIds (2 ^ 64) := by
  have h : nthId (2 ^ 64 - 1) = 0 := by
    unfold nthId
    decide
  refine ⟨h, ?_⟩
  unfold allocIds
  exact List.mem_map.mpr ⟨2 ^ 64 - 1, List.mem_range.mpr (by norm_num), h⟩

/-- Claim C3 (amended).  As long as the total number of allocations over
the process lifetime stays below `2^64` (the wrap-around point of the
`usize` counter), allocated ids are strictly increasing in allocation
order, hence pairwise distinct and never equal to an earlier id; the i-th
allocation returns `1 + i`, so the first id is `1` and `0` is never
returned. -/
theorem C3_alloc_ids (n : Nat) (hn : n < 2 ^ 64) :
    (∀ i j, i < j → j < n → nthId i < nthId j) ∧
    (∀ i, i < n → nthId i = 1 + i) ∧
    (∀ i, i < n → nthId i ≠ 0) ∧
    (0 < n → nthId 0 = 1 ∧ 1 ∈ allocIds n) ∧
    (allocIds n).Nodup := by
  have hval : ∀ i, i < n → nthId i = 1 + i := by
    intro i hi
    unfold nthId
    apply Nat.mod_eq_of_lt
    omega
  refine ⟨?_, hval, ?_, ?_, ?_⟩
  · intro i j hij hjn
    rw [hval i (lt_trans hij hjn), hval j hjn]
    omega
  · intro i hi
    rw [hval i hi]
    omega
  · intro hpos
    refine ⟨by rw [hval 0 hpos], ?_⟩
    unfold allocIds
    exact List.mem_map.mpr ⟨0, List.mem_range.mpr hpos, hval 0 hpos⟩
  · unfold allocIds
    refine List.Nodup.map_on ?_ (List.nodup_range n)
    intro x hx y hy hxy
    rw [List.mem_range] at hx hy
    rw [hval x hx, hval y hy] at hxy
    omega

/-- Witness for C3 at three allocations. -/
theorem C3_witness :
    nthId 0 < nthId 1 ∧ nthId 2 = 3 ∧ nthId 1 ≠ 0 ∧ nthId 0 = 1 := by
  have h := C3_alloc_ids 3 (by norm_num)
  exact ⟨h.1 0 1 (by norm_num) (by norm_num), h.2.1 2 (by norm_num),
    h.2.2.1 1 (by norm_num), (h.2.2.2.1 (by norm_num)).1⟩

/-- The ordering claimed by the spec: registration in the Registry happens
before the Welcome is sent. -/
def registersBeforeWelcome (l : List InitStep) : Prop :=
  l.indexOf InitStep.register < l.indexOf InitStep.sendWelcome

/-- Counterexample to claim C4 as stated.  `user_connected` sends
`Welcome(id)` (inside `send_welcome`, main.rs:52) before inserting the
channel into the Registry (main.rs:56), so the step order of the code
refutes the claimed register-then-welcome order. -/
theorem C4_counterexample :
    ¬ registersBeforeWelcome user_connected_init_order := by
  unfold registersBeforeWelcome user_connected_init_order
  decide

/-- Claim C4 (amended).  The handler allocates the id, then sends exactly
one `Welcome(id)` on the fresh outbound channel, and only then registers
the channel; since nothing else can reach the channel before registration
and the channel preserves order, the registered queue holds exactly the
Welcome frame, and after any sequence of broadcast `Update` enqueues the
first frame the client receives is still that single Welcome. -/
theorem C4_welcome_before_register (freshId : Nat) (users : UsersMap) :
    user_connected_init_order.indexOf InitStep.sendWelcome <
      user_connected_init_order.indexOf InitStep.register ∧
    (connectInit freshId users).1 = freshId ∧
    mapFind freshId (connectInit freshId users).2 =
      some ⟨[encodeServer (.Welcome freshId)], false⟩ ∧
    (∀ ups : List (List RemoteState),
      ([encodeServer (ServerMessage.Welcome freshId)] ++
        ups.map (fun u => encodeServer (ServerMessage.Update u))).head? =
        some (encodeServer (ServerMessage.Welcome freshId)) ∧
      ([encodeServer (ServerMessage.Welcome freshId)] ++
        ups.map (fun u => encodeServer (ServerMessage.Update u))).countP
          (fun j => msgTag j = some ("Welcome")) = 1) := by
  refine ⟨by decide, rfl, ?_, ?_⟩
  · simp [connectInit, mapFind, mapInsert, List.find?]
  · intro ups
    have hzero : List.countP (fun j => msgTag j = some ("Welcome"))
        (ups.map (fun u => encodeServer (ServerMessage.Update u))) = 0 := by
      rw [List.countP_eq_zero]
      intro j hj
      obtain ⟨u, hu, rfl⟩ := List.mem_map.mp hj
      simp [msgTag, encodeServer]
    refine ⟨rfl, ?_⟩
    rw [List.cons_append, List.nil_append, List.countP_cons, hzero]
    simp [msgTag, encodeServer]

/-- The variant name serde writes as the external tag of a
`ServerMessage`. -/
def serverTag : ServerMessage → String
  | .Welcome _ => "Welcome"
  | .GoodBye _ => "GoodBye"
  | .Update _ => "Update"

/-- All connection ids carried by the message fit in a `usize` (true of
every message the Rust code can build, where the field type is `usize`;
the bound is explicit here because the model widens `usize` to `Nat`). -/
def ServerMessage.idsInRange : ServerMessage → Bool
  | .Welcome id => id < 2 ^ 64
  | .GoodBye id => id < 2 ^ 64
  | .Update xs => xs.all (fun s => s.id < 2 ^ 64)

/-- Counterexample to claim C8 as stated.  serde_json serializes a
non-finite `f32` as JSON `null`, and `null` does not deserialize back
into an `f32`; so an `Update` carrying a NaN rotation encodes to a frame
that fails to decode, and the round trip does not return the original
message. -/
theorem C8_counterexample :
    encodeF32 F32.nan = Json.null ∧
    decodeServer (encodeServer (ServerMessage.Update
      [⟨1, ⟨.finite 0, .finite 0⟩, .nan⟩])) = none :=
  ⟨rfl, rfl⟩

/-- Decoding inverts encoding on finite floats. -/
theorem decodeF32_encodeF32 (f : F32) (h : f.isFinite = true) :
    decodeF32 (encodeF32 f) = some f := by
  cases f with
  | finite q => rfl
  | nan => simp [F32.isFinite] at h
  | inf => simp [F32.isFinite] at h
  | neginf => simp [F32.isFinite] at h

/-- Decoding inverts encoding on vectors with finite components. -/
theorem decodeVec2_encodeVec2 (v : Vec2) (hx : v.x.isFinite = true)
    (hy : v.y.isFinite = true) :
    decodeVec2 (encodeVec2 v) = some v := by
  simp [encodeVec2, decodeVec2, decodeF32_encodeF32 v.x hx,
    decodeF32_encodeF32 v.y hy]

/-- Decoding inverts encoding on in-range numbers. -/
theorem decodeUsize_natCast (n : Nat) (h : n < 2 ^ 64) :
    decodeUsize (.num (n : ℚ)) = some n := by
  have hl : n < 18446744073709551616 := by
    norm_num at h
    exact h
  have hc : ((n : ℚ)).den = 1 ∧ 0 ≤ ((n : ℚ)).num ∧
      ((n : ℚ)).num < 2 ^ 64 := by
    refine ⟨Rat.den_natCast n, ?_, ?_⟩
    · simp
    · rw [Rat.num_natCast]
      exact_mod_cast h
  simp [decodeUsize, hc]
  exact hl

/-- Decoding inverts encoding on remote states with finite floats and an
in-range id. -/
theorem decodeRemoteState_encode (s : RemoteState)
    (h : s.allFinite = true) (hid : s.id < 2 ^ 64) :
    decodeRemoteState (encodeRemoteState s) = some s := by
  simp only [RemoteState.allFinite, Bool.and_eq_true] at h
  simp [encodeRemoteState, decodeRemoteState, decodeUsize_natCast s.id hid,
    decodeVec2_encodeVec2 s.position h.1.1 h.1.2,
    decodeF32_encodeF32 s.rotation h.2]

/-- Decoding inverts encoding on sequences of such remote states. -/
theorem decodeStateSeq_encode (xs : List RemoteState) :
    xs.all RemoteState.allFinite = true → (∀ s ∈ xs, s.id < 2 ^ 64) →
      decodeStateSeq (xs.map encodeRemoteState) = some xs := by
  induction xs with
  | nil =>
    intro _ _
    rfl
  | cons s rest ih =>
    intro h hid
    simp only [List.all_cons, Bool.and_eq_true] at h
    have h1 := decodeRemoteState_encode s h.1
      (hid s (List.mem_cons_self s rest))
    have h2 := ih h.2 (fun q hq => hid q (List.mem_cons_of_mem s hq))
    simp [decodeStateSeq, h1, h2]

/-- Claim C8 (amended).  For every `ServerMessage` and `ClientMessage`
whose float components are finite, encoding then decoding returns the
original message; and every frame is self-describing: its single
top-level key is the variant tag, computable from the frame alone, and a
frame of one union never decodes as the other union. -/
theorem C8_codec_roundtrip (sm : ServerMessage) (cm : ClientMessage)
    (hsm : sm.allFinite = true) (hid : sm.idsInRange = true)
    (hcm : cm.allFinite = true) :
    decodeServer (encodeServer sm) = some sm ∧
    decodeClient (encodeClient cm) = some cm ∧
    msgTag (encodeServer sm) = some (serverTag sm) ∧
    msgTag (encodeClient cm) = some ("State") ∧
    decodeClient (encodeServer sm) = none ∧
    decodeServer (encodeClient cm) = none := by
  obtain ⟨s⟩ := cm
  simp only [ClientMessage.allFinite, Bool.and_eq_true] at hcm
  have hclient : decodeClient (encodeClient (ClientMessage.State s))
      = some (ClientMessage.State s) := by
    simp [encodeClient, decodeClient, decodeState, encodeState,
      decodeVec2_encodeVec2 s.pos hcm.1.1 hcm.1.2,
      decodeF32_encodeF32 s.r hcm.2]
  cases sm with
  | Welcome id =>
    have hb : id < 2 ^ 64 := by
      simpa [ServerMessage.idsInRange] using hid
    refine ⟨?_, hclient, rfl, rfl, rfl, rfl⟩
    simp [encodeServer, decodeServer, decodeUsize_natCast id hb]
  | GoodBye id =>
    have hb : id < 2 ^ 64 := by
      simpa [ServerMessage.idsInRange] using hid
    refine ⟨?_, hclient, rfl, rfl, rfl, rfl⟩
    simp [encodeServer, decodeServer, decodeUsize_natCast id hb]
  | Update xs =>
    simp only [ServerMessage.idsInRange] at hid
    have hb : ∀ s ∈ xs, s.id < 2 ^ 64 := by
      intro q hq
      have hd := List.all_eq_true.mp hid q hq
      simpa using hd
    have hfin : xs.all RemoteState.allFinite = true := by
      simpa [ServerMessage.allFinite] using hsm
    refine ⟨?_, hclient, rfl, rfl, rfl, rfl⟩
    simp [encodeServer, decodeServer, decodeRemoteStates,
      decodeStateSeq_encode xs hfin hb]

/-- A concrete all-finite server message. -/
def exUpdateMsg : ServerMessage :=
  .Update [⟨1, ⟨.finite 1, .finite 2⟩, .finite 3⟩]

/-- A concrete all-finite client message. -/
def exClientMsg : ClientMessage :=
  .State ⟨⟨.finite 4, .finite 5⟩, .finite (1 / 2)⟩

/-- Witness for C8 at concrete messages. -/
theorem C8_witness :
    decodeServer (encodeServer exUpdateMsg) = some exUpdateMsg ∧
    decodeClient (encodeClient exClientMsg) = some exClientMsg ∧
    msgTag (encodeServer exUpdateMsg) = some ("Update") := by
  have h := C8_codec_roundtrip exUpdateMsg exClientMsg (by decide)
    (by decide) (by decide)
  exact ⟨h.1, h.2.1, h.2.2.1⟩
